import Mathlib

/-!
Verification development for the Black plugin subsystem: shallow embedding of
the configuration manager, profile registry, plugin registry discovery, the
dispatch pipeline and the import-sorter reference plugin, with theorems about
the properties stated in the specification.
-/

set_option maxRecDepth 4000

/-! ## Python-style primitive values and string helpers -/

/-- A primitive Python value as it appears in plugin options and profile
settings. Floats are kept as their source text, since no arithmetic is ever
performed on them in the embedded code. -/
inductive PyValue where
  | vBool (b : Bool)
  | vInt (n : Nat)
  | vFloat (s : String)
  | vStr (s : String)
  | vListStr (l : List String)
deriving DecidableEq, Repr

/-- Python `str.strip()` on ASCII whitespace (leading side, over char list). -/
def dropWhile1 (l : List Char) : List Char :=
  l.dropWhile (fun c => c = ' ' ∨ c = '\t' ∨ c = '\n' ∨ c = '\r')

/-- Python `str.strip()` on ASCII whitespace. -/
def pyStrip (s : String) : String :=
  String.mk ((dropWhile1 (dropWhile1 s.toList).reverse).reverse)

/-- Python `str.lower()` on one ASCII character. -/
def asciiLower (c : Char) : Char :=
  match c with
  | 'A' => 'a' | 'B' => 'b' | 'C' => 'c' | 'D' => 'd' | 'E' => 'e' | 'F' => 'f'
  | 'G' => 'g' | 'H' => 'h' | 'I' => 'i' | 'J' => 'j' | 'K' => 'k' | 'L' => 'l'
  | 'M' => 'm' | 'N' => 'n' | 'O' => 'o' | 'P' => 'p' | 'Q' => 'q' | 'R' => 'r'
  | 'S' => 's' | 'T' => 't' | 'U' => 'u' | 'V' => 'v' | 'W' => 'w' | 'X' => 'x'
  | 'Y' => 'y' | 'Z' => 'z'
  | c => c

/-- Python `str.lower()` restricted to ASCII. -/
def pyLower (s : String) : String := String.mk (s.toList.map asciiLower)

/-- Python `str.isdigit()` for ASCII strings: nonempty and all digits. -/
def pyIsDigit (s : String) : Bool :=
  !s.toList.isEmpty && s.toList.all Char.isDigit

/-- Number of occurrences of a character, Python `str.count(c)`. -/
def pyCountChar (c : Char) (s : String) : Nat :=
  (s.toList.filter (fun x => x = c)).length

/-- Python `str.replace(old, "", 1)` for a single character: remove the first
occurrence. -/
def removeFirstChar (c : Char) : List Char → List Char
  | [] => []
  | x :: xs => if x = c then xs else x :: removeFirstChar c xs

/-- Python `str.replace(".", "", 1)`. -/
def removeFirstDot (s : String) : String := String.mk (removeFirstChar '.' s.toList)

/-- Numeric value of an all-digit string. -/
def digitsToNat (s : String) : Nat :=
  s.toList.foldl (fun acc c => acc * 10 + (c.toNat - '0'.toNat)) 0

/-- Python `s.split(sep, 1)` for a single-character separator: the part before
the first occurrence and, when the separator occurs, the remainder. -/
def splitFirst (c : Char) : List Char → List Char × Option (List Char)
  | [] => ([], none)
  | x :: xs =>
      if x = c then ([], some xs)
      else
        let r := splitFirst c xs
        (x :: r.1, r.2)

/-- Helper for `splitAll`: accumulates the current chunk in reverse. -/
def splitAllAux (c : Char) : List Char → List Char → List (List Char)
  | [], acc => [acc.reverse]
  | x :: xs, acc =>
      if x = c then acc.reverse :: splitAllAux c xs []
      else splitAllAux c xs (x :: acc)

/-- Python `s.split(sep)` for a single-character separator (no limit). -/
def splitAll (c : Char) (l : List Char) : List (List Char) := splitAllAux c l []

/-- Python `str.startswith`. -/
def pyStartsWith (pre s : String) : Bool := pre.toList.isPrefixOf s.toList

/-- Python `c in s` for a single character. -/
def pyContainsChar (c : Char) (s : String) : Bool := s.toList.contains c

/-! ## Python dictionaries as insertion-ordered association lists -/

/-- Python dict lookup `d.get(k)`. -/
def dictGet {α : Type} (k : String) : List (String × α) → Option α
  | [] => none
  | (k', v) :: rest => if k' = k then some v else dictGet k rest

/-- Python dict assignment `d[k] = v`: replace in place if the key exists,
otherwise append at the end (insertion order is preserved). -/
def dictSet {α : Type} (k : String) (v : α) : List (String × α) → List (String × α)
  | [] => [(k, v)]
  | (k', v') :: rest => if k' = k then (k, v) :: rest else (k', v') :: dictSet k v rest

/-- Python `d1.update(d2)`: assign every pair of `d2` into `d1` in order. -/
def dictUpdate {α : Type} (d1 d2 : List (String × α)) : List (String × α) :=
  d2.foldl (fun d kv => dictSet kv.1 kv.2 d) d1

/-! ## ConfigurationManager (src/black/plugins/__init__.py) -/

/-- State of a plugin in its configuration (`PluginState` enum). `dflt` stands
for the source's `DEFAULT`, "use project default". -/
inductive PluginState where
  | enabled
  | disabled
  | dflt
deriving DecidableEq, Repr

/-- Configuration for a single plugin (`PluginConfig` dataclass). -/
structure PluginConfig where
  name : String
  state : PluginState := .dflt
  options : List (String × PyValue) := []
  version_requirement : Option String := none
deriving DecidableEq, Repr

/-- Configuration for all plugins (`PluginsConfig` dataclass). -/
structure PluginsConfig where
  plugin_configs : List (String × PluginConfig) := []
  discovery_paths : List String := []
  disable_all : Bool := false
  enable_by_default : Bool := true
deriving DecidableEq, Repr

/-- A per-plugin entry of the manifest's plugin section: a bare boolean, a
table with optional `enabled` / `options` / `version` keys (an `options` key
whose value is not a table behaves exactly like an absent one and is embedded
as absent), or a value of any other shape. -/
inductive ManifestEntry where
  | mBool (b : Bool)
  | mTable (enabled : Option Bool) (options : Option (List (String × PyValue)))
      (version : Option String)
  | mOther
deriving DecidableEq, Repr

/-- Parsed content of the manifest's `tool.black.plugins` section. -/
structure ManifestData where
  discovery_paths : Option (List String) := none
  disable_all : Option Bool := none
  enable_by_default : Option Bool := none
  plugins : List (String × ManifestEntry) := []
deriving DecidableEq, Repr

/-- Outcome of locating and parsing the manifest file: not found (or no path
resolves), unreadable (an OSError), malformed (a TOML decode fault), or
successfully parsed data. -/
inductive ManifestOutcome where
  | notFound
  | unreadable
  | malformed
  | parsed (d : ManifestData)
deriving DecidableEq, Repr

/-- The three reserved global keys of the plugin section. -/
def isReservedKey (k : String) : Bool :=
  k = "discovery_paths" || k = "disable_all" || k = "enable_by_default"

/-- Build a `PluginConfig` from one manifest entry
(`ConfigurationManager.load_from_pyproject`, per-plugin loop body). -/
def pluginConfigOfEntry (pn : String) (entry : ManifestEntry) : PluginConfig :=
  let pc0 : PluginConfig := { name := pn }
  match entry with
  | .mBool b => { pc0 with state := if b then .enabled else .disabled }
  | .mTable en opts ver =>
      let p1 := match en with
        | some b => { pc0 with state := if b then .enabled else .disabled }
        | none => pc0
      let p2 := match opts with
        | some o => { p1 with options := o }
        | none => p1
      match ver with
      | some v => { p2 with version_requirement := some v }
      | none => p2
  | .mOther => pc0

/-- `ConfigurationManager.load_from_pyproject`: on a missing, unreadable or
malformed manifest the prior configuration is returned unchanged (the fault is
only logged); on parsed data the global keys present are applied and each
non-reserved per-plugin entry is converted and assigned into the map. -/
def load_from_pyproject (cfg : PluginsConfig) : ManifestOutcome → PluginsConfig
  | .notFound => cfg
  | .unreadable => cfg
  | .malformed => cfg
  | .parsed d =>
      let c1 := match d.discovery_paths with
        | some p => { cfg with discovery_paths := p }
        | none => cfg
      let c2 := match d.disable_all with
        | some b => { c1 with disable_all := b }
        | none => c1
      let c3 := match d.enable_by_default with
        | some b => { c2 with enable_by_default := b }
        | none => c2
      d.plugins.foldl (fun c kv =>
        if isReservedKey kv.1 then c
        else { c with
               plugin_configs :=
                 dictSet kv.1 (pluginConfigOfEntry kv.1 kv.2) c.plugin_configs }) c3

/-- CLI type coercion of one option value
(`ConfigurationManager.update_from_cli`): case-insensitive `true` / `false`
become booleans, an all-digit string an integer, a string that has at most one
decimal point and is otherwise digits a float, anything else stays a string. -/
def coerceValue (v : String) : PyValue :=
  if pyLower v = "true" then .vBool true
  else if pyLower v = "false" then .vBool false
  else if pyIsDigit v then .vInt (digitsToNat v)
  else if pyIsDigit (removeFirstDot v) && decide (pyCountChar '.' v ≤ 1) then .vFloat v
  else .vStr v

/-- Parse the `k=v,...` tail of a plugin spec: split on commas, keep the pairs
that contain `=`, split each at the first `=`, strip key and value. -/
def parseOptionPairs (rest : List Char) : List (String × String) :=
  (splitAll ',' rest).filterMap (fun pair =>
    match splitFirst '=' pair with
    | (_, none) => none
    | (k, some v) => some (pyStrip (String.mk k), pyStrip (String.mk v)))

/-- The plugin name of a `--plugin` spec: the stripped part before the first
colon. -/
def specName (spec : String) : String :=
  pyStrip (String.mk (splitFirst ':' spec.toList).1)

/-- The `if plugin_name not in ...: create` step shared by the enable and
disable loops of `update_from_cli`: make sure the map has an entry for the
name, default-initialized when absent. -/
def ensureEntry (pname : String) (d : List (String × PluginConfig)) :
    List (String × PluginConfig) :=
  if (dictGet pname d).isSome then d else dictSet pname { name := pname } d

/-- Process one `--plugin NAME[:k=v,...]` spec
(`ConfigurationManager.update_from_cli`, plugin loop body): force the named
plugin's state to enabled and assign each parsed, coerced option into its
option map. -/
def processPluginSpec (cfg : PluginsConfig) (spec : String) : PluginsConfig :=
  let pname := specName spec
  let cfgs := ensureEntry pname cfg.plugin_configs
  let pc := (dictGet pname cfgs).getD { name := pname }
  let pc := { pc with state := PluginState.enabled }
  let pc := match (splitFirst ':' spec.toList).2 with
    | none => pc
    | some rest =>
        if rest.isEmpty then pc
        else { pc with
               options := (parseOptionPairs rest).foldl
                 (fun o kv => dictSet kv.1 (coerceValue kv.2) o) pc.options }
  { cfg with plugin_configs := dictSet pname pc cfgs }

/-- Force one plugin's state to disabled
(`ConfigurationManager.update_from_cli`, disable loop body). -/
def processDisable (cfg : PluginsConfig) (pname : String) : PluginsConfig :=
  let cfgs := ensureEntry pname cfg.plugin_configs
  let pc := (dictGet pname cfgs).getD { name := pname }
  { cfg with plugin_configs := dictSet pname { pc with state := PluginState.disabled } cfgs }

/-- The CLI arguments consumed by configuration resolution. The repeatable
flags arrive as lists (argparse `action="append"`); `plugin_config` carries the
outcome of loading the explicitly-given alternate manifest path when the flag
was passed. -/
structure CliArgs where
  disable_all_plugins : Bool := false
  plugin_config : Option ManifestOutcome := none
  plugin : List String := []
  disable_plugin : List String := []

/-- `ConfigurationManager.update_from_cli`: (a) the global disable-all flag,
(b) the alternate manifest reload, (c) the `--plugin` specs in order, then
(d) the `--disable-plugin` names in order. -/
def update_from_cli (cfg : PluginsConfig) (args : CliArgs) : PluginsConfig :=
  let c1 := if args.disable_all_plugins then { cfg with disable_all := true } else cfg
  let c2 := match args.plugin_config with
    | some outcome => load_from_pyproject c1 outcome
    | none => c1
  let c3 := args.plugin.foldl processPluginSpec c2
  args.disable_plugin.foldl processDisable c3

/-- Per-plugin enablement resolution (`PluginRegistry.configure_plugins`):
`enabled` maps to true, `disabled` to false, `dflt` to `enable_by_default`. -/
def resolveEnabled (state : PluginState) (enable_by_default : Bool) : Bool :=
  match state with
  | .enabled => true
  | .disabled => false
  | .dflt => enable_by_default

/-! ## Statement helpers for the CLI option merge -/

/-- The parsed option pairs of a `--plugin` spec (empty when the spec has no
colon or an empty tail, mirroring `if len(parts) > 1 and parts[1]:`). -/
def specPairs (spec : String) : List (String × String) :=
  match (splitFirst ':' spec.toList).2 with
  | none => []
  | some rest => if rest.isEmpty then [] else parseOptionPairs rest

/-- The value of the last pair with the given key, if any: the assignment that
wins when one key is repeated in a spec. -/
def lastVal (k : String) : List (String × String) → Option String
  | [] => none
  | p :: ps =>
      match lastVal k ps with
      | some v => some v
      | none => if p.1 = k then some p.2 else none

/-! ## ConfigurationProfile / ProfileRegistry (src/black/profiles.py) -/

/-- A named, inheritable settings bundle (`ConfigurationProfile` dataclass). -/
structure ConfigurationProfile where
  name : String
  description : String := ""
  version : String := "1.0"
  settings : List (String × PyValue) := []
  parent : Option String := none
deriving DecidableEq, Repr

/-- The registry's name-to-profile dictionary (`ProfileRegistry.profiles`). -/
abbrev ProfileMap := List (String × ConfigurationProfile)

/-- `ProfileRegistry.add_profile`: keyed insertion, overwriting a same-named
profile. -/
def add_profile (reg : ProfileMap) (p : ConfigurationProfile) : ProfileMap :=
  dictSet p.name p reg

/-- `ConfigurationProfile.get_effective_configuration`, with an explicit fuel
bound on the recursion depth (the source recurses unboundedly; all theorems
below use enough fuel for the chains involved). The Python truthiness test
`if self.parent` makes an empty parent name behave like no parent. A parent
name absent from the registry truncates the chain silently. -/
def get_effective_configuration (fuel : Nat) (reg : ProfileMap)
    (p : ConfigurationProfile) : List (String × PyValue) :=
  match fuel with
  | 0 => p.settings
  | fuel + 1 =>
      match p.parent with
      | none => p.settings
      | some ps =>
          if ps = "" then p.settings
          else
            match dictGet ps reg with
            | some parentProfile =>
                dictUpdate (get_effective_configuration fuel reg parentProfile) p.settings
            | none => p.settings

/-- The five seeded built-in profiles (`BUILTIN_PROFILES`), registered by
`get_registry` in dictionary order into a fresh registry (the file-based
system, user and project profile directories are taken empty). -/
def builtinRegistry : ProfileMap :=
  [({ name := "default", description := "Black's default settings",
      settings := [("line_length", PyValue.vInt 88),
                   ("target_version", PyValue.vListStr ["py38"]),
                   ("skip_string_normalization", PyValue.vBool false),
                   ("skip_magic_trailing_comma", PyValue.vBool false)] } : ConfigurationProfile),
   { name := "pycharm", description := "Profile compatible with PyCharm defaults",
     settings := [("line_length", PyValue.vInt 120),
                  ("skip_string_normalization", PyValue.vBool true)],
     parent := some "default" },
   { name := "vscode", description := "Profile compatible with VS Code defaults",
     settings := [("line_length", PyValue.vInt 100)],
     parent := some "default" },
   { name := "google", description := "Profile following Google Python Style Guide",
     settings := [("line_length", PyValue.vInt 80),
                  ("target_version", PyValue.vListStr ["py38"]),
                  ("skip_string_normalization", PyValue.vBool true)] },
   { name := "compact", description := "Compact formatting with shorter line length",
     settings := [("line_length", PyValue.vInt 79),
                  ("skip_magic_trailing_comma", PyValue.vBool true)],
     parent := some "default" }].foldl add_profile []

/-- Module-level `save_profile(name, description, settings, parent, location)`:
builds the profile, adds it to the registry, and serializes it to disk (the
disk copy is never read back by `load_profile`, which resolves from the
in-memory registry, so the embedding tracks the registry). -/
def save_profile (reg : ProfileMap) (nm desc : String)
    (settings : List (String × PyValue)) (parent : Option String) : ProfileMap :=
  add_profile reg { name := nm, description := desc, settings := settings, parent := parent }

/-- Module-level `load_profile(name)`: look the profile up in the registry and
return its effective configuration, `none` when the name is unknown. -/
def load_profile (fuel : Nat) (reg : ProfileMap) (nm : String) :
    Option (List (String × PyValue)) :=
  (dictGet nm reg).map (get_effective_configuration fuel reg)

/-- Profile A of the spec's inheritance example. -/
def profileA : ConfigurationProfile :=
  { name := "A", settings := [("line_length", PyValue.vInt 88)] }

/-- Profile B of the spec's inheritance example, inheriting from A. -/
def profileB : ConfigurationProfile :=
  { name := "B", settings := [("line_length", PyValue.vInt 120)], parent := some "A" }

/-- Profile C of the spec's inheritance example, inheriting from B. -/
def profileC : ConfigurationProfile :=
  { name := "C", settings := [("skip_string_normalization", PyValue.vBool true)],
    parent := some "B" }

/-- The registry holding the spec's A, B, C example profiles. -/
def registryABC : ProfileMap := [profileA, profileB, profileC].foldl add_profile []


/-! ## PluginRegistry.discover_plugins (src/black/plugins/registry.py) -/

/-- What happens when one candidate source unit is imported: it loads and
exposes plugin classes (pairs of declared `PLUGIN_NAME` and a class identity),
it raises an `ImportError` (caught and logged by the discovery loop), or it
raises any other exception (uncaught: it propagates out of the loop). -/
inductive UnitOutcome where
  | loads (classes : List (String × Nat))
  | importFault
  | otherFault
deriving DecidableEq, Repr

/-- One discovery path: its name on the module search path, whether it exists
on disk, and the candidate units found in it. -/
structure DiscoveryPath where
  name : String
  pathExists : Bool
  units : List (String × UnitOutcome)
deriving DecidableEq, Repr

/-- State of the discovery scan: the registered class table, the log of units
whose import failed, and whether an uncaught exception is propagating. -/
structure ScanState where
  classes : List (String × Nat)
  log : List String
  aborted : Bool
deriving DecidableEq, Repr

/-- Process one candidate unit: register its classes by declared name (last
one wins), log an import fault and continue, or begin propagating any other
fault. Once aborted, nothing further runs. -/
def scanUnit (st : ScanState) (u : String × UnitOutcome) : ScanState :=
  if st.aborted then st
  else
    match u.2 with
    | .loads cls => { st with classes := cls.foldl (fun m c => dictSet c.1 c.2 m) st.classes }
    | .importFault => { st with log := st.log ++ [u.1] }
    | .otherFault => { st with aborted := true }

/-- Process one discovery path: skipped when it does not exist (`continue`),
otherwise each of its units in order. -/
def scanPath (st : ScanState) (p : DiscoveryPath) : ScanState :=
  if st.aborted || !p.pathExists then st else p.units.foldl scanUnit st

/-- Observable result of `discover_plugins`: the module search path after the
call, the search path while the body ran, the class table (the mutations made
before any uncaught fault persist on the singleton), the per-unit import-fault
log, and whether an uncaught exception propagated to the caller. -/
structure DiscoverResult where
  sysPathAfter : List String
  sysPathDuring : List String
  plugin_classes : List (String × Nat)
  loggedUnits : List String
  raised : Bool
deriving DecidableEq, Repr

/-- The temporary search-path mutation: each existing path not already present
is prepended. -/
def prependPaths (sysPath : List String) (paths : List DiscoveryPath) : List String :=
  paths.foldl (fun sp p =>
    if !sp.contains p.name && p.pathExists then p.name :: sp else sp) sysPath

/-- `PluginRegistry.discover_plugins`: prepend the paths, scan every path's
units under a try/finally that restores the saved copy of the search path on
every exit, normal or exceptional, and re-raises any uncaught fault. -/
def discover_plugins (sysPath : List String) (classes0 : List (String × Nat))
    (paths : List DiscoveryPath) : DiscoverResult :=
  let st := paths.foldl scanPath { classes := classes0, log := [], aborted := false }
  { sysPathAfter := sysPath
    sysPathDuring := prependPaths sysPath paths
    plugin_classes := st.classes
    loggedUnits := st.log
    raised := st.aborted }

/-! ## Dispatch pipeline (src/black/plugins/integration.py) -/

/-- Syntax nodes are opaque to the pipeline. -/
abbrev NodeT := Nat

/-- The shared mutable per-run context dictionary. -/
abbrev Ctx := List (String × String)

/-- What one `apply_plugin` call does: return a value (`none` meaning "no
opinion") or raise. Context mutations made before returning or raising are
carried alongside. -/
inductive PRes where
  | ok (r : Option (List String))
  | exn
deriving DecidableEq, Repr

/-- An enabled plugin as the pipeline sees it: a declared name and the
behavior of its `apply_plugin` on a node and context. -/
structure PluginB where
  name : String
  applyB : Ctx → NodeT → Ctx × PRes

/-- Result of `PluginLineGenerator._apply_plugins`: the context after the
loop, the names logged for caught faults, and the first non-None result. -/
structure ApplyOut where
  ctx : Ctx
  log : List String
  res : Option (List String)
deriving DecidableEq, Repr

/-- `PluginLineGenerator._apply_plugins`: offer the node to each plugin in
order; a non-None result is returned at once; None moves on; a raise is
caught, the plugin's name logged, and the loop continues. -/
def applyPlugins : List PluginB → NodeT → Ctx → ApplyOut
  | [], _, ctx => { ctx := ctx, log := [], res := none }
  | p :: ps, node, ctx =>
      match p.applyB ctx node with
      | (ctx2, .ok (some r)) => { ctx := ctx2, log := [], res := some r }
      | (ctx2, .ok none) => applyPlugins ps node ctx2
      | (ctx2, .exn) =>
          let o := applyPlugins ps node ctx2
          { o with log := p.name :: o.log }

/-- `PluginLineGenerator.visit`: the plugins' result when one produced one,
otherwise the host renderer's output for the node. -/
def visitNode (plugins : List PluginB) (fallback : NodeT → List String)
    (node : NodeT) (ctx : Ctx) : List String :=
  match (applyPlugins plugins node ctx).res with
  | some r => r
  | none => fallback node

/-! ## ImportSorterPlugin (src/black/plugins/examples/import_sorter.py) -/

/-- An import statement as the sorter sees it: whether it is a from-import and
the module name `_get_module_name` extracts (`"."` for a relative import). -/
structure ImportNode where
  isFrom : Bool
  moduleName : String
deriving DecidableEq, Repr

/-- The sorter's configuration, with the `__init__` defaults. -/
structure SorterConfig where
  group_order : List String := ["stdlib", "third_party", "first_party", "local"]
  stdlib_prefixes : List String := []
  third_party_prefixes : List String := []
  first_party_prefixes : List String := []
  local_prefixes : List String := ["."]
  sort_case_insensitive : Bool := true
  sort_by_package_then_name : Bool := true
  separate_groups_with_blank_line : Bool := true
deriving Repr

/-- `any(module_name.startswith(p) for p in prefixes)`. -/
def anyStarts (m : String) (ps : List String) : Bool :=
  ps.any (fun p => pyStartsWith p m)

/-- The fixed built-in standard-library name set of `_is_stdlib_module`. -/
def stdlibModules : List String :=
  ["sys", "os", "re", "math", "time", "datetime", "collections", "itertools",
   "functools", "random", "socket", "json", "csv", "argparse", "logging",
   "pathlib", "typing", "abc", "io", "tempfile", "shutil", "unittest"]

/-- `ImportSorterPlugin._is_stdlib_module`: a dotted path that does not start
with `xml.`, `http.`, `html.` or `email.` is never stdlib; otherwise the
top-level component is looked up in the fixed set. -/
def isStdlibModule (m : String) : Bool :=
  if pyContainsChar '.' m && !(anyStarts m ["xml.", "http.", "html.", "email."]) then false
  else stdlibModules.contains (String.mk ((splitAll '.' m.toList).headD []))

/-- `ImportSorterPlugin._determine_import_group`: local, first-party,
third-party and stdlib prefix tests in that order, then the stdlib heuristic
when no stdlib prefixes are configured, defaulting to third-party. -/
def determineImportGroup (cfg : SorterConfig) (imp : ImportNode) : String :=
  let m := imp.moduleName
  if anyStarts m cfg.local_prefixes then "local"
  else if !cfg.first_party_prefixes.isEmpty && anyStarts m cfg.first_party_prefixes then
    "first_party"
  else if !cfg.third_party_prefixes.isEmpty && anyStarts m cfg.third_party_prefixes then
    "third_party"
  else if (if cfg.stdlib_prefixes.isEmpty then isStdlibModule m
           else anyStarts m cfg.stdlib_prefixes) then "stdlib"
  else "third_party"

/-- Modelled from the spec, amended: the classification rule as §4.5 states
it, with rule (4) corrected to require — when no stdlib prefixes are
configured — that the path has no dot or starts with `xml.` / `http.` /
`html.` / `email.`, besides its top component being in the built-in set. -/
def determineImportGroupSpec (cfg : SorterConfig) (imp : ImportNode) : String :=
  let m := imp.moduleName
  if anyStarts m cfg.local_prefixes then "local"
  else if !cfg.first_party_prefixes.isEmpty && anyStarts m cfg.first_party_prefixes then
    "first_party"
  else if !cfg.third_party_prefixes.isEmpty && anyStarts m cfg.third_party_prefixes then
    "third_party"
  else if (!cfg.stdlib_prefixes.isEmpty && anyStarts m cfg.stdlib_prefixes)
      || (cfg.stdlib_prefixes.isEmpty
          && (!(pyContainsChar '.' imp.moduleName)
              || anyStarts imp.moduleName ["xml.", "http.", "html.", "email."])
          && stdlibModules.contains
               (String.mk ((splitAll '.' imp.moduleName.toList).headD []))) then "stdlib"
  else "third_party"

/-- A sort key of `_get_sort_key`: a plain string, or a (package, full path)
tuple when sorting by package first and the path is dotted. -/
inductive SortKey where
  | str (s : String)
  | pair (a b : String)
deriving DecidableEq, Repr

/-- `ImportSorterPlugin._get_sort_key`. -/
def getSortKey (ci bp : Bool) (imp : ImportNode) : SortKey :=
  let m := if ci then pyLower imp.moduleName else imp.moduleName
  if bp && pyContainsChar '.' m then
    .pair (String.mk ((splitAll '.' m.toList).headD [])) m
  else .str m

/-- Python `<` on sort keys: defined between two strings and between two
tuples (lexicographically); comparing a tuple with a string raises TypeError,
embedded as the error case. -/
def keyLt : SortKey → SortKey → Except Unit Bool
  | .str a, .str b => .ok (decide (a < b))
  | .pair a1 a2, .pair b1 b2 => .ok (decide (a1 < b1 ∨ (a1 = b1 ∧ a2 < b2)))
  | .str _, .pair _ _ => .error ()
  | .pair _ _, .str _ => .error ()

/-- Which of the two kinds a key is (tuple = true). -/
def keyIsPair : SortKey → Bool
  | .str _ => false
  | .pair _ _ => true

/-- Stable fallible insertion: `x`, earlier in the original order, goes in
front of the first element not below it; every comparison may raise. -/
def insertE {α : Type} (key : α → SortKey) (x : α) : List α → Except Unit (List α)
  | [] => .ok [x]
  | y :: ys =>
      match keyLt (key y) (key x) with
      | .error e => .error e
      | .ok true =>
          match insertE key x ys with
          | .error e => .error e
          | .ok r => .ok (y :: r)
      | .ok false => .ok (x :: y :: ys)

/-- Stable fallible sort by key, the embedding of `list.sort(key=...)`: the
result agrees with Python's stable sort when every needed comparison is
defined, and raises exactly when the keyed list mixes tuples and strings (in
CPython, sorting a list whose keys mix tuples and strings always reaches a
tuple-string comparison and raises TypeError). -/
def sortE {α : Type} (key : α → SortKey) : List α → Except Unit (List α)
  | [] => .ok []
  | x :: xs =>
      match sortE key xs with
      | .error e => .error e
      | .ok r => insertE key x r

/-- One step of the grouping loop of `_sort_imports`: append the import,
tagged with its group, to its group's list, creating the group if needed. -/
def groupStep (cfg : SorterConfig) (g : List (String × List (ImportNode × String)))
    (imp : ImportNode) : List (String × List (ImportNode × String)) :=
  let grp := determineImportGroup cfg imp
  match dictGet grp g with
  | some l => dictSet grp (l ++ [(imp, grp)]) g
  | none => dictSet grp [(imp, grp)] g

/-- The grouping loop of `_sort_imports`, creating groups in first-seen
order. -/
def groupImports (cfg : SorterConfig) (imports : List ImportNode) :
    List (String × List (ImportNode × String)) :=
  imports.foldl (groupStep cfg) []

/-- The assembly loop of `_sort_imports`: groups in configured order first,
then groups not listed there, in first-seen order. -/
def assembleGroups (go : List String)
    (grouped : List (String × List (ImportNode × String))) : List (ImportNode × String) :=
  grouped.foldl (fun acc gl => if go.contains gl.1 then acc else acc ++ gl.2)
    (go.foldl (fun acc g =>
      match dictGet g grouped with
      | some l => acc ++ l
      | none => acc) [])

/-- The per-group sorting loop of `_sort_imports`: sort each group's list in
dictionary order, stopping at the first group whose sort raises. -/
def sortGroups (key : ImportNode × String → SortKey) :
    List (String × List (ImportNode × String)) →
    Except Unit (List (String × List (ImportNode × String)))
  | [] => .ok []
  | gl :: rest =>
      match sortE key gl.2 with
      | .error e => .error e
      | .ok l2 =>
          match sortGroups key rest with
          | .error e => .error e
          | .ok rest2 => .ok ((gl.1, l2) :: rest2)

/-- `ImportSorterPlugin._sort_imports`: group, sort each group (a TypeError
from a mixed-kind comparison propagates), then assemble. -/
def sortImports (cfg : SorterConfig) (imports : List ImportNode) :
    Except Unit (List (ImportNode × String)) :=
  match sortGroups
      (fun x => getSortKey cfg.sort_case_insensitive cfg.sort_by_package_then_name x.1)
      (groupImports cfg imports) with
  | .error e => .error e
  | .ok sorted => .ok (assembleGroups cfg.group_order sorted)

/-- The emission loop of `_process_module_imports`: the rendered lines of each
sorted import, with a blank line between consecutive distinct groups when
configured. -/
def renderSorted (cfg : SorterConfig) (sorted : List (ImportNode × String))
    (renderImp : ImportNode → List String) : List String :=
  (sorted.foldl (fun st ig =>
    let lines := if cfg.separate_groups_with_blank_line && st.2.isSome
        && st.2 ≠ some ig.2 then st.1 ++ [""] else st.1
    (lines ++ renderImp ig.1, some ig.2)) (([], none) : List String × Option String)).1

/-- `ImportSorterPlugin._process_module_imports`: `none` when the module has
no imports; otherwise the sorted import lines followed by the other rendered
lines, separated by a blank line when both sections are non-empty and the
first other line is not blank. A TypeError from sorting propagates. -/
def processModuleImports (cfg : SorterConfig) (imports : List ImportNode)
    (renderImp : ImportNode → List String) (otherLines : List String) :
    Except Unit (Option (List String)) :=
  if imports.isEmpty then .ok none
  else
    match sortImports cfg imports with
    | .error e => .error e
    | .ok sorted =>
        let importLines := renderSorted cfg sorted renderImp
        let resultLines :=
          if !importLines.isEmpty && !otherLines.isEmpty
              && !(pyStrip (otherLines.headD "")).isEmpty then
            importLines ++ [""] ++ otherLines
          else importLines ++ otherLines
        .ok (some resultLines)

/-- `ImportSorterPlugin.apply_plugin` on a whole-module (`file_input`) node:
the processed import block when it is truthy, the host render of the module
otherwise; any exception from processing propagates out of the plugin. -/
def applyImportSorterFile (cfg : SorterConfig) (imports : List ImportNode)
    (renderImp : ImportNode → List String) (otherLines : List String)
    (moduleRender : List String) : Except Unit (List String) :=
  match processModuleImports cfg imports renderImp otherLines with
  | .error e => .error e
  | .ok (some lines) => .ok (if lines.isEmpty then moduleRender else lines)
  | .ok none => .ok moduleRender


/-! ## Dictionary lemmas -/

theorem dictGet_dictSet_same {α : Type} (k : String) (v : α) (d : List (String × α)) :
    dictGet k (dictSet k v d) = some v := by
  induction d with
  | nil => simp [dictGet, dictSet]
  | cons hd tl ih =>
      obtain ⟨a, b⟩ := hd
      by_cases h : a = k
      · subst h
        simp [dictGet, dictSet]
      · simp [dictGet, dictSet, h, ih]

theorem dictGet_dictSet_other {α : Type} (k k' : String) (v : α) (d : List (String × α))
    (h : k' ≠ k) : dictGet k (dictSet k' v d) = dictGet k d := by
  induction d with
  | nil => simp [dictGet, dictSet, h]
  | cons hd tl ih =>
      obtain ⟨a, b⟩ := hd
      by_cases h2 : a = k'
      · subst h2
        simp [dictGet, dictSet, h]
      · simp only [dictSet, if_neg h2]
        by_cases h3 : a = k
        · simp [dictGet, h3]
        · simp [dictGet, h3, ih]

theorem dictGet_ensureEntry_other (nm pname : String) (d : List (String × PluginConfig))
    (h : pname ≠ nm) : dictGet nm (ensureEntry pname d) = dictGet nm d := by
  unfold ensureEntry
  by_cases h2 : (dictGet pname d).isSome
  · simp [h2]
  · simp [h2, dictGet_dictSet_other _ _ _ _ h]

/-! ## Lemmas about the CLI update loops -/

theorem processDisable_get_same (c : PluginsConfig) (nm : String) :
    (dictGet nm (processDisable c nm).plugin_configs).map PluginConfig.state
      = some PluginState.disabled := by
  simp only [processDisable]
  rw [dictGet_dictSet_same]
  rfl

theorem processDisable_get_other (c : PluginsConfig) (nm other : String) (h : other ≠ nm) :
    dictGet nm (processDisable c other).plugin_configs = dictGet nm c.plugin_configs := by
  simp only [processDisable]
  rw [dictGet_dictSet_other _ _ _ _ h, dictGet_ensureEntry_other _ _ _ h]

theorem foldl_processDisable_not_mem (l : List String) (c : PluginsConfig) (nm : String)
    (h : nm ∉ l) :
    dictGet nm (l.foldl processDisable c).plugin_configs = dictGet nm c.plugin_configs := by
  induction l generalizing c with
  | nil => rfl
  | cons x xs ih =>
      simp only [List.foldl_cons]
      rw [ih (processDisable c x) (fun hx => h (List.mem_cons_of_mem _ hx))]
      exact processDisable_get_other c nm x (fun he => h (he ▸ List.mem_cons_self _ _))

theorem foldl_processDisable_mem (l : List String) (c : PluginsConfig) (nm : String)
    (h : nm ∈ l) :
    (dictGet nm (l.foldl processDisable c).plugin_configs).map PluginConfig.state
      = some PluginState.disabled := by
  induction l generalizing c with
  | nil => cases h
  | cons x xs ih =>
      simp only [List.foldl_cons]
      by_cases hx : nm ∈ xs
      · exact ih (processDisable c x) hx
      · have hnx : nm = x := by
          rcases List.mem_cons.mp h with h1 | h1
          · exact h1
          · exact absurd h1 hx
        subst hnx
        rw [foldl_processDisable_not_mem xs (processDisable c nm) nm hx]
        exact processDisable_get_same c nm

theorem processPluginSpec_get_same (c : PluginsConfig) (spec : String) :
    (dictGet (specName spec) (processPluginSpec c spec).plugin_configs).map PluginConfig.state
      = some PluginState.enabled := by
  simp only [processPluginSpec]
  rw [dictGet_dictSet_same]
  cases hs : (splitFirst ':' spec.toList).2 with
  | none => rfl
  | some rest =>
      by_cases hr : rest.isEmpty
      · simp [hr]
      · simp [hr]

theorem processPluginSpec_get_other (c : PluginsConfig) (spec nm : String)
    (h : specName spec ≠ nm) :
    dictGet nm (processPluginSpec c spec).plugin_configs = dictGet nm c.plugin_configs := by
  simp only [processPluginSpec]
  rw [dictGet_dictSet_other _ _ _ _ h, dictGet_ensureEntry_other _ _ _ h]

theorem foldl_processPluginSpec_not_mem (l : List String) (c : PluginsConfig) (nm : String)
    (h : nm ∉ l.map specName) :
    dictGet nm (l.foldl processPluginSpec c).plugin_configs = dictGet nm c.plugin_configs := by
  induction l generalizing c with
  | nil => rfl
  | cons x xs ih =>
      simp only [List.map_cons] at h
      simp only [List.foldl_cons]
      rw [ih (processPluginSpec c x) (fun hx => h (List.mem_cons_of_mem _ hx))]
      exact processPluginSpec_get_other c x nm
        (fun he => h (he ▸ List.mem_cons_self _ _))

theorem foldl_processPluginSpec_mem (l : List String) (c : PluginsConfig) (nm : String)
    (h : nm ∈ l.map specName) :
    (dictGet nm (l.foldl processPluginSpec c).plugin_configs).map PluginConfig.state
      = some PluginState.enabled := by
  induction l generalizing c with
  | nil => cases h
  | cons x xs ih =>
      simp only [List.map_cons] at h
      simp only [List.foldl_cons]
      by_cases hx : nm ∈ xs.map specName
      · exact ih (processPluginSpec c x) hx
      · have hnx : nm = specName x := by
          rcases List.mem_cons.mp h with h1 | h1
          · exact h1
          · exact absurd h1 hx
        rw [foldl_processPluginSpec_not_mem xs (processPluginSpec c x) nm hx, hnx]
        exact processPluginSpec_get_same c x

theorem dictGet_ensureEntry_same (pname : String) (d : List (String × PluginConfig)) :
    dictGet pname (ensureEntry pname d)
      = some ((dictGet pname d).getD { name := pname }) := by
  unfold ensureEntry
  cases h : dictGet pname d with
  | some pc => simp [h]
  | none => simp [h, dictGet_dictSet_same]

theorem lastVal_not_mem (k : String) (ps : List (String × String))
    (h : k ∉ ps.map Prod.fst) : lastVal k ps = none := by
  induction ps with
  | nil => rfl
  | cons p tl ih =>
      simp only [List.map_cons] at h
      simp only [lastVal]
      rw [ih (fun hx => h (List.mem_cons_of_mem _ hx))]
      have hne : ¬(p.1 = k) := by
        intro he
        subst he
        exact h (List.mem_cons_self _ _)
      simp only
      rw [if_neg hne]

theorem dictGet_foldl_coerce (k : String) (ps : List (String × String))
    (opts : List (String × PyValue)) :
    dictGet k (ps.foldl (fun o kv => dictSet kv.1 (coerceValue kv.2) o) opts)
      = match lastVal k ps with
        | some v => some (coerceValue v)
        | none => dictGet k opts := by
  induction ps generalizing opts with
  | nil => rfl
  | cons p ps ih =>
      simp only [List.foldl_cons, lastVal]
      rw [ih]
      cases hl : lastVal k ps with
      | some v => simp
      | none =>
          simp only
          by_cases hp : p.1 = k
          · subst hp
            simp [dictGet_dictSet_same]
          · simp [hp, dictGet_dictSet_other _ _ _ _ hp]

/-! ## Claim theorems -/

/-- C6: for every manifest-load attempt, when no manifest is found or the file
is unreadable or malformed, `load_from_pyproject` returns normally with the
plugin configuration exactly equal to its prior value; the embedding is a
total function, so no fault escalates. -/
theorem manifest_load_fault_noop (cfg : PluginsConfig) (o : ManifestOutcome)
    (h : o = ManifestOutcome.notFound ∨ o = ManifestOutcome.unreadable ∨
      o = ManifestOutcome.malformed) :
    load_from_pyproject cfg o = cfg := by
  rcases h with h | h | h <;> subst h <;> rfl

/-- Witness for C6 at a malformed manifest and the default configuration. -/
theorem manifest_load_fault_noop_witness :
    (ManifestOutcome.malformed = ManifestOutcome.notFound ∨
      ManifestOutcome.malformed = ManifestOutcome.unreadable ∨
      ManifestOutcome.malformed = ManifestOutcome.malformed)
    ∧ load_from_pyproject ({} : PluginsConfig) ManifestOutcome.malformed
        = ({} : PluginsConfig) :=
  ⟨Or.inr (Or.inr rfl),
   manifest_load_fault_noop ({} : PluginsConfig) ManifestOutcome.malformed
     (Or.inr (Or.inr rfl))⟩

/-- C4: when a profile names a (non-empty) parent that resolves in the
registry, its effective configuration is the parent's recursively computed
effective configuration overlaid key-by-key with its own settings; when the
parent name does not resolve, the effective configuration is exactly its own
settings, with no fault; and on the spec's A, B, C example the result is
`{line_length: 120, skip_string_normalization: true}`. -/
theorem profile_effective_inheritance (reg : ProfileMap) (p q : ConfigurationProfile)
    (ps : String) (n : Nat) (h1 : p.parent = some ps) (h2 : ps ≠ "")
    (h3 : dictGet ps reg = some q) :
    get_effective_configuration (n + 1) reg p
      = dictUpdate (get_effective_configuration n reg q) p.settings
    ∧ (∀ (p2 : ConfigurationProfile) (ps2 : String), p2.parent = some ps2 →
        dictGet ps2 reg = none → get_effective_configuration (n + 1) reg p2 = p2.settings)
    ∧ get_effective_configuration 10 registryABC profileC
        = [("line_length", PyValue.vInt 120), ("skip_string_normalization", PyValue.vBool true)] := by
  refine ⟨?_, ?_, ?_⟩
  · simp [get_effective_configuration, h1, h2, h3]
  · intro p2 ps2 hp hn
    by_cases hps : ps2 = "" <;> simp [get_effective_configuration, hp, hn, hps]
  · rfl

/-- Witness for C4: profile C's parent B resolves in the example registry and
the inheritance equation holds there. -/
theorem profile_effective_inheritance_witness :
    profileC.parent = some "B" ∧ ("B" : String) ≠ "" ∧
    dictGet "B" registryABC = some profileB ∧
    get_effective_configuration 10 registryABC profileC
      = dictUpdate (get_effective_configuration 9 registryABC profileB) profileC.settings :=
  ⟨rfl, by decide, by decide,
   (profile_effective_inheritance registryABC profileC profileB "B" 9 rfl (by decide)
     (by decide)).1⟩

/-- C9 counterexample: saving a profile `mine` with settings `{x: 1}` and
parent `default` into the seeded registry and then loading `mine` returns the
parent's effective settings overlaid with `{x: 1}`, which differs from the
settings that were saved. -/
theorem profile_roundtrip_cex :
    load_profile 10 (save_profile builtinRegistry "mine" "" [("x", PyValue.vInt 1)]
        (some "default")) "mine"
      = some [("line_length", PyValue.vInt 88), ("target_version", PyValue.vListStr ["py38"]),
              ("skip_string_normalization", PyValue.vBool false),
              ("skip_magic_trailing_comma", PyValue.vBool false), ("x", PyValue.vInt 1)]
    ∧ load_profile 10 (save_profile builtinRegistry "mine" "" [("x", PyValue.vInt 1)]
        (some "default")) "mine"
      ≠ some [("x", PyValue.vInt 1)] := by
  constructor
  · rfl
  · decide

/-- C9 amended: for every profile saved without a parent, loading that profile
name returns settings equal to those that were saved (the code keeps the saved
profile in the in-memory registry that loading consults). -/
theorem profile_roundtrip_no_parent (reg : ProfileMap) (nm desc : String)
    (settings : List (String × PyValue)) (n : Nat) :
    load_profile n (save_profile reg nm desc settings none) nm = some settings := by
  unfold load_profile save_profile add_profile
  rw [dictGet_dictSet_same]
  cases n <;> rfl

/-- C1: a plugin whose `apply_plugin` raises at its invocation point is caught
and logged with its declared name and the pipeline behaves exactly as if the
plugin had deferred: the remaining plugins are offered the node from the
context the raiser left, and the fallback renderer is used when none of them
produces a result. -/
theorem plugin_fault_isolated (p : PluginB) (rest : List PluginB) (node : NodeT)
    (ctx ctx2 : Ctx) (h : p.applyB ctx node = (ctx2, PRes.exn)) :
    (applyPlugins (p :: rest) node ctx).res = (applyPlugins rest node ctx2).res
    ∧ (applyPlugins (p :: rest) node ctx).log
        = p.name :: (applyPlugins rest node ctx2).log
    ∧ (∀ fallback : NodeT → List String,
        visitNode (p :: rest) fallback node ctx = visitNode rest fallback node ctx2) := by
  refine ⟨?_, ?_, ?_⟩
  · simp [applyPlugins, h]
  · simp [applyPlugins, h]
  · intro fallback
    simp [visitNode, applyPlugins, h]

/-- Witness for C1: an always-raising plugin ahead of a well-behaved plugin
does not prevent the latter's output, and alone it falls back to the host
renderer; its name is logged. -/
theorem plugin_fault_isolated_witness :
    visitNode [⟨"raiser", fun c _ => (c, PRes.exn)⟩,
               ⟨"good", fun c _ => (c, PRes.ok (some ["out"]))⟩]
        (fun _ => ["fb"]) 0 []
      = visitNode [⟨"good", fun c _ => (c, PRes.ok (some ["out"]))⟩] (fun _ => ["fb"]) 0 [] :=
  (plugin_fault_isolated ⟨"raiser", fun c _ => (c, PRes.exn)⟩
    [⟨"good", fun c _ => (c, PRes.ok (some ["out"]))⟩] 0 [] [] rfl).2.2 (fun _ => ["fb"])

/-- C2 counterexample: with a first plugin returning an empty (non-None) list
and a second returning `["x"]`, the first plugin returning a non-empty result
is the second, yet the pipeline returns the empty list: the code
short-circuits on any non-None result, not on the first non-empty one. -/
theorem pipeline_nonempty_claim_cex :
    (PluginB.mk "p1" (fun c _ => (c, PRes.ok (some [])))).applyB [] 0
        = ([], PRes.ok (some []))
    ∧ (PluginB.mk "p2" (fun c _ => (c, PRes.ok (some ["x"])))).applyB [] 0
        = ([], PRes.ok (some ["x"]))
    ∧ visitNode [⟨"p1", fun c _ => (c, PRes.ok (some []))⟩,
                 ⟨"p2", fun c _ => (c, PRes.ok (some ["x"]))⟩] (fun _ => ["fb"]) 0 [] = []
    ∧ ([] : List String) ≠ ["x"] := by
  refine ⟨rfl, rfl, rfl, by simp⟩

/-- C2 amended: the first plugin returning a non-None result (empty included)
short-circuits all later plugins and the host renderer and its result is
returned verbatim; a plugin returning None (no opinion) hands over to the
remaining plugins with its context updates; with no plugins left the host
renderer's output is used. -/
theorem pipeline_dispatch_order (p : PluginB) (rest : List PluginB) (node : NodeT)
    (ctx ctx2 : Ctx) (r : List String)
    (h : p.applyB ctx node = (ctx2, PRes.ok (some r))) :
    (∀ fallback : NodeT → List String, visitNode (p :: rest) fallback node ctx = r)
    ∧ (∀ (q : PluginB) (qs : List PluginB) (c c2 : Ctx),
        q.applyB c node = (c2, PRes.ok none) →
        ∀ fallback : NodeT → List String,
          visitNode (q :: qs) fallback node c = visitNode qs fallback node c2)
    ∧ (∀ (fallback : NodeT → List String) (c : Ctx),
        visitNode [] fallback node c = fallback node) := by
  refine ⟨?_, ?_, ?_⟩
  · intro fallback
    simp [visitNode, applyPlugins, h]
  · intro q qs c c2 hq fallback
    simp [visitNode, applyPlugins, hq]
  · intro fallback c
    rfl

/-- Witness for C2 amended: a plugin returning `["res"]` short-circuits a
later plugin. -/
theorem pipeline_dispatch_order_witness :
    visitNode [⟨"a", fun c _ => (c, PRes.ok (some ["res"]))⟩,
               ⟨"b", fun c _ => (c, PRes.ok none)⟩] (fun _ => ["fb"]) 0 [] = ["res"] :=
  (pipeline_dispatch_order ⟨"a", fun c _ => (c, PRes.ok (some ["res"]))⟩
    [⟨"b", fun c _ => (c, PRes.ok none)⟩] 0 [] [] ["res"] rfl).1 (fun _ => ["fb"])

/-- C3: a plugin named by any `--disable-plugin` flag ends up disabled after
`update_from_cli`, whatever the `--plugin` flags say and in whatever order the
flags were given (the repeatable flags are order-insensitive lists); the net
precedence is explicit disable over explicit CLI enable (which wins for names
only enabled), over the manifest entry (untouched names keep their prior
config), over `enable_by_default` (the resolution of the `dflt` state). -/
theorem cli_disable_always_wins (cfg : PluginsConfig) (args : CliArgs) (nm : String)
    (h : nm ∈ args.disable_plugin) :
    (dictGet nm (update_from_cli cfg args).plugin_configs).map PluginConfig.state
        = some PluginState.disabled
    ∧ (∀ ebd : Bool, resolveEnabled PluginState.disabled ebd = false)
    ∧ (∀ nm2 : String, nm2 ∈ args.plugin.map specName → nm2 ∉ args.disable_plugin →
        (dictGet nm2 (update_from_cli cfg args).plugin_configs).map PluginConfig.state
          = some PluginState.enabled)
    ∧ (∀ nm3 : String, nm3 ∉ args.plugin.map specName → nm3 ∉ args.disable_plugin →
        args.plugin_config = none →
        dictGet nm3 (update_from_cli cfg args).plugin_configs
          = dictGet nm3 cfg.plugin_configs)
    ∧ (∀ ebd : Bool, resolveEnabled PluginState.dflt ebd = ebd) := by
  refine ⟨?_, ?_, ?_, ?_, ?_⟩
  · simp only [update_from_cli]
    exact foldl_processDisable_mem _ _ _ h
  · intro ebd
    rfl
  · intro nm2 h2a h2b
    simp only [update_from_cli]
    rw [foldl_processDisable_not_mem _ _ _ h2b]
    exact foldl_processPluginSpec_mem _ _ _ h2a
  · intro nm3 h3a h3b hpc
    simp only [update_from_cli, hpc]
    rw [foldl_processDisable_not_mem _ _ _ h3b,
        foldl_processPluginSpec_not_mem _ _ _ h3a]
    by_cases hd : args.disable_all_plugins <;> simp [hd]
  · intro ebd
    rfl

/-- Witness for C3: the plugin `p1` both enabled with options and disabled on
the same command line resolves to disabled. -/
theorem cli_disable_always_wins_witness :
    ("p1" ∈ (CliArgs.mk false none ["p1:x=1"] ["p1"]).disable_plugin)
    ∧ (dictGet "p1" (update_from_cli ({} : PluginsConfig)
        (CliArgs.mk false none ["p1:x=1"] ["p1"])).plugin_configs).map PluginConfig.state
        = some PluginState.disabled :=
  ⟨by decide,
   (cli_disable_always_wins ({} : PluginsConfig)
     (CliArgs.mk false none ["p1:x=1"] ["p1"]) "p1" (by decide)).1⟩

/-- Table of how `processPluginSpec` rewrites one plugin's options, used to
state C5. -/
theorem processPluginSpec_options (c : PluginsConfig) (spec : String) :
    (dictGet (specName spec) (processPluginSpec c spec).plugin_configs).map
        PluginConfig.options
      = some ((specPairs spec).foldl (fun o kv => dictSet kv.1 (coerceValue kv.2) o)
          ((dictGet (specName spec) c.plugin_configs).getD
            { name := specName spec }).options) := by
  have hbase := dictGet_ensureEntry_same (specName spec) c.plugin_configs
  simp only [processPluginSpec]
  rw [dictGet_dictSet_same]
  cases hs : (splitFirst ':' spec.toList).2 with
  | none =>
      have hs2 : (splitFirst ':' spec.data).2 = none := hs
      simp [specPairs, hs, hs2, hbase]
  | some rest =>
      have hs2 : (splitFirst ':' spec.data).2 = some rest := hs
      by_cases hr : rest.isEmpty
      · simp [specPairs, hs, hs2, hr, hbase]
      · simp [specPairs, hs, hs2, hr, hbase]

/-- C5: processing a `--plugin NAME[:k=v,...]` spec forces the named plugin's
state to enabled; each option value is type-coerced — the literal strings
true/false (case-insensitively) become booleans, else an all-digit string an
integer, else a string with at most one decimal point and otherwise digits a
float, anything else stays a string — and assigned into the plugin's option
map, so the (last) CLI value for a key overrides a same-named manifest key
while every key the CLI does not mention keeps its manifest value. -/
theorem cli_plugin_spec_semantics (c : PluginsConfig) (spec : String) (k v k2 : String)
    (hk : lastVal k (specPairs spec) = some v)
    (hk2 : k2 ∉ (specPairs spec).map Prod.fst) :
    (dictGet (specName spec) (processPluginSpec c spec).plugin_configs).map
        PluginConfig.state = some PluginState.enabled
    ∧ (dictGet (specName spec) (processPluginSpec c spec).plugin_configs).map
        (fun pc => dictGet k pc.options) = some (some (coerceValue v))
    ∧ (dictGet (specName spec) (processPluginSpec c spec).plugin_configs).map
        (fun pc => dictGet k2 pc.options)
        = some (dictGet k2 ((dictGet (specName spec) c.plugin_configs).getD
            { name := specName spec }).options)
    ∧ (∀ w : String, pyLower w = "true" → coerceValue w = PyValue.vBool true)
    ∧ (∀ w : String, pyLower w = "false" → coerceValue w = PyValue.vBool false)
    ∧ (∀ w : String, pyLower w ≠ "true" → pyLower w ≠ "false" → pyIsDigit w = true →
        coerceValue w = PyValue.vInt (digitsToNat w))
    ∧ (∀ w : String, pyLower w ≠ "true" → pyLower w ≠ "false" → pyIsDigit w = false →
        pyIsDigit (removeFirstDot w) = true → pyCountChar '.' w ≤ 1 →
        coerceValue w = PyValue.vFloat w)
    ∧ (∀ w : String, pyLower w ≠ "true" → pyLower w ≠ "false" → pyIsDigit w = false →
        (pyIsDigit (removeFirstDot w) = false ∨ ¬(pyCountChar '.' w ≤ 1)) →
        coerceValue w = PyValue.vStr w) := by
  have hopts := processPluginSpec_options c spec
  cases hdg : dictGet (specName spec) (processPluginSpec c spec).plugin_configs with
  | none => rw [hdg] at hopts; simp at hopts
  | some pc =>
      rw [hdg] at hopts
      simp only [Option.map_some'] at hopts
      have hpcopts : pc.options = (specPairs spec).foldl
          (fun o kv => dictSet kv.1 (coerceValue kv.2) o)
          ((dictGet (specName spec) c.plugin_configs).getD
            { name := specName spec }).options := by
        injection hopts
      refine ⟨?_, ?_, ?_, ?_, ?_, ?_, ?_, ?_⟩
      · have := processPluginSpec_get_same c spec
        rw [hdg] at this
        exact this
      · simp only [Option.map_some', hpcopts]
        rw [dictGet_foldl_coerce, hk]
      · simp only [Option.map_some', hpcopts]
        rw [dictGet_foldl_coerce, lastVal_not_mem _ _ hk2]
      · intro w hw
        simp [coerceValue, hw]
      · intro w hw
        simp [coerceValue, hw]
      · intro w h1 h2 h3
        simp [coerceValue, h1, h2, h3]
      · intro w h1 h2 h3 h4 h5
        simp [coerceValue, h1, h2, h3, h4, h5]
      · intro w h1 h2 h3 h4
        rcases h4 with h4 | h4 <;> simp [coerceValue, h1, h2, h3, h4]

/-- Witness for C5: the spec `sorter:x=10,y=hello` against a manifest that set
`keep` and `x`: the plugin ends enabled, `x` becomes the integer 10, `keep`
keeps its manifest value. -/
theorem cli_plugin_spec_semantics_witness :
    lastVal "x" (specPairs "sorter:x=10,y=hello") = some "10"
    ∧ "keep" ∉ (specPairs "sorter:x=10,y=hello").map Prod.fst
    ∧ (dictGet (specName "sorter:x=10,y=hello")
        (processPluginSpec
          ({ plugin_configs := [("sorter",
              { name := "sorter", options := [("keep", PyValue.vStr "m"),
                                              ("x", PyValue.vStr "old")] })] } : PluginsConfig)
          "sorter:x=10,y=hello").plugin_configs).map PluginConfig.state
        = some PluginState.enabled :=
  ⟨by decide, by decide,
   (cli_plugin_spec_semantics
     ({ plugin_configs := [("sorter",
         { name := "sorter", options := [("keep", PyValue.vStr "m"),
                                         ("x", PyValue.vStr "old")] })] } : PluginsConfig)
     "sorter:x=10,y=hello" "x" "10" "keep" (by decide) (by decide)).1⟩

/-! ## Lemmas about the discovery scan -/

theorem dictGet_isSome_dictSet {α : Type} (k k2 : String) (v : α) (d : List (String × α))
    (h : (dictGet k d).isSome = true) : (dictGet k (dictSet k2 v d)).isSome = true := by
  by_cases he : k2 = k
  · subst he
    simp [dictGet_dictSet_same]
  · rw [dictGet_dictSet_other _ _ _ _ he]
    exact h

theorem dictGet_isSome_foldlSet (cls : List (String × Nat)) (m : List (String × Nat))
    (k : String) (h : (dictGet k m).isSome = true) :
    (dictGet k (cls.foldl (fun m c => dictSet c.1 c.2 m) m)).isSome = true := by
  induction cls generalizing m with
  | nil => exact h
  | cons c tl ih => exact ih _ (dictGet_isSome_dictSet _ _ _ _ h)

theorem dictGet_isSome_foldlSet_mem (cls : List (String × Nat)) (m : List (String × Nat))
    (kv : String × Nat) (h : kv ∈ cls) :
    (dictGet kv.1 (cls.foldl (fun m c => dictSet c.1 c.2 m) m)).isSome = true := by
  induction cls generalizing m with
  | nil => cases h
  | cons c tl ih =>
      rcases List.mem_cons.mp h with he | hm
      · subst he
        exact dictGet_isSome_foldlSet tl _ _ (by simp [dictGet_dictSet_same])
      · exact ih _ hm

theorem scanUnit_notaborted (st : ScanState) (u : String × UnitOutcome)
    (hu : u.2 ≠ UnitOutcome.otherFault) (h : st.aborted = false) :
    (scanUnit st u).aborted = false := by
  cases hc : u.2 with
  | loads cls => simp [scanUnit, h, hc]
  | importFault => simp [scanUnit, h, hc]
  | otherFault => exact absurd hc hu

theorem foldl_scanUnit_notaborted (l : List (String × UnitOutcome)) (st : ScanState)
    (hl : ∀ u ∈ l, u.2 ≠ UnitOutcome.otherFault) (h : st.aborted = false) :
    (l.foldl scanUnit st).aborted = false := by
  induction l generalizing st with
  | nil => exact h
  | cons u tl ih =>
      exact ih _ (fun x hx => hl x (List.mem_cons_of_mem _ hx))
        (scanUnit_notaborted st u (hl u (List.mem_cons_self _ _)) h)

theorem scanPath_notaborted (st : ScanState) (p : DiscoveryPath)
    (hp : ∀ u ∈ p.units, u.2 ≠ UnitOutcome.otherFault) (h : st.aborted = false) :
    (scanPath st p).aborted = false := by
  unfold scanPath
  cases hpe : p.pathExists
  · simp [h, hpe]
  · simp only [h, hpe, Bool.not_true, Bool.or_false]
    exact foldl_scanUnit_notaborted _ _ hp h

theorem foldl_scanPath_notaborted (paths : List DiscoveryPath) (st : ScanState)
    (hl : ∀ p ∈ paths, ∀ u ∈ p.units, u.2 ≠ UnitOutcome.otherFault)
    (h : st.aborted = false) : (paths.foldl scanPath st).aborted = false := by
  induction paths generalizing st with
  | nil => exact h
  | cons p tl ih =>
      exact ih _ (fun x hx => hl x (List.mem_cons_of_mem _ hx))
        (scanPath_notaborted st p (hl p (List.mem_cons_self _ _)) h)

theorem scanUnit_log_mono (st : ScanState) (u : String × UnitOutcome) (nm : String)
    (h : nm ∈ st.log) : nm ∈ (scanUnit st u).log := by
  by_cases ha : st.aborted = true
  · simp [scanUnit, ha, h]
  · cases hc : u.2 <;> simp [scanUnit, ha, hc, h]

theorem scanUnit_classes_mono (st : ScanState) (u : String × UnitOutcome) (k : String)
    (h : (dictGet k st.classes).isSome = true) :
    (dictGet k (scanUnit st u).classes).isSome = true := by
  by_cases ha : st.aborted = true
  · simp [scanUnit, ha, h]
  · cases hc : u.2 <;> simp [scanUnit, ha, hc, h]
    exact dictGet_isSome_foldlSet _ _ _ h

theorem foldl_scanUnit_log_mono (l : List (String × UnitOutcome)) (st : ScanState)
    (nm : String) (h : nm ∈ st.log) : nm ∈ (l.foldl scanUnit st).log := by
  induction l generalizing st with
  | nil => exact h
  | cons u tl ih => exact ih _ (scanUnit_log_mono st u nm h)

theorem foldl_scanUnit_classes_mono (l : List (String × UnitOutcome)) (st : ScanState)
    (k : String) (h : (dictGet k st.classes).isSome = true) :
    (dictGet k ((l.foldl scanUnit st).classes)).isSome = true := by
  induction l generalizing st with
  | nil => exact h
  | cons u tl ih => exact ih _ (scanUnit_classes_mono st u k h)

theorem scanPath_log_mono (st : ScanState) (p : DiscoveryPath) (nm : String)
    (h : nm ∈ st.log) : nm ∈ (scanPath st p).log := by
  unfold scanPath
  by_cases hc : (st.aborted || !p.pathExists) = true
  · simp [hc, h]
  · simp only [hc, if_false]
    exact foldl_scanUnit_log_mono _ _ _ h

theorem scanPath_classes_mono (st : ScanState) (p : DiscoveryPath) (k : String)
    (h : (dictGet k st.classes).isSome = true) :
    (dictGet k (scanPath st p).classes).isSome = true := by
  unfold scanPath
  by_cases hc : (st.aborted || !p.pathExists) = true
  · simp [hc, h]
  · simp only [hc, if_false]
    exact foldl_scanUnit_classes_mono _ _ _ h

theorem foldl_scanPath_log_mono (paths : List DiscoveryPath) (st : ScanState) (nm : String)
    (h : nm ∈ st.log) : nm ∈ (paths.foldl scanPath st).log := by
  induction paths generalizing st with
  | nil => exact h
  | cons p tl ih => exact ih _ (scanPath_log_mono st p nm h)

theorem foldl_scanPath_classes_mono (paths : List DiscoveryPath) (st : ScanState)
    (k : String) (h : (dictGet k st.classes).isSome = true) :
    (dictGet k ((paths.foldl scanPath st).classes)).isSome = true := by
  induction paths generalizing st with
  | nil => exact h
  | cons p tl ih => exact ih _ (scanPath_classes_mono st p k h)

theorem foldl_scanUnit_log_mem (l : List (String × UnitOutcome)) (st : ScanState)
    (nm : String) (h : st.aborted = false)
    (hl : ∀ u ∈ l, u.2 ≠ UnitOutcome.otherFault)
    (hu : (nm, UnitOutcome.importFault) ∈ l) : nm ∈ (l.foldl scanUnit st).log := by
  induction l generalizing st with
  | nil => cases hu
  | cons u tl ih =>
      have htl : ∀ x ∈ tl, x.2 ≠ UnitOutcome.otherFault :=
        fun x hx => hl x (List.mem_cons_of_mem _ hx)
      rcases List.mem_cons.mp hu with he | hm
      · subst he
        refine foldl_scanUnit_log_mono tl _ nm ?_
        simp [scanUnit, h]
      · exact ih _ (scanUnit_notaborted st u (hl u (List.mem_cons_self _ _)) h) htl hm

theorem foldl_scanUnit_classes_mem (l : List (String × UnitOutcome)) (st : ScanState)
    (nm : String) (cls : List (String × Nat)) (kv : String × Nat) (h : st.aborted = false)
    (hl : ∀ u ∈ l, u.2 ≠ UnitOutcome.otherFault)
    (hu : (nm, UnitOutcome.loads cls) ∈ l) (hkv : kv ∈ cls) :
    (dictGet kv.1 ((l.foldl scanUnit st).classes)).isSome = true := by
  induction l generalizing st with
  | nil => cases hu
  | cons u tl ih =>
      have htl : ∀ x ∈ tl, x.2 ≠ UnitOutcome.otherFault :=
        fun x hx => hl x (List.mem_cons_of_mem _ hx)
      rcases List.mem_cons.mp hu with he | hm
      · subst he
        refine foldl_scanUnit_classes_mono tl _ _ ?_
        simp only [scanUnit, h, Bool.false_eq_true, if_false]
        exact dictGet_isSome_foldlSet_mem _ _ _ hkv
      · exact ih _ (scanUnit_notaborted st u (hl u (List.mem_cons_self _ _)) h) htl hm

theorem foldl_scanPath_log_mem (paths : List DiscoveryPath) (st : ScanState)
    (h : st.aborted = false)
    (hl : ∀ p ∈ paths, ∀ u ∈ p.units, u.2 ≠ UnitOutcome.otherFault)
    (p : DiscoveryPath) (hp : p ∈ paths) (hex : p.pathExists = true) (nm : String)
    (hu : (nm, UnitOutcome.importFault) ∈ p.units) :
    nm ∈ (paths.foldl scanPath st).log := by
  induction paths generalizing st with
  | nil => cases hp
  | cons q qs ih =>
      have htl : ∀ x ∈ qs, ∀ u ∈ x.units, u.2 ≠ UnitOutcome.otherFault :=
        fun x hx => hl x (List.mem_cons_of_mem _ hx)
      rcases List.mem_cons.mp hp with he | hm
      · subst he
        refine foldl_scanPath_log_mono qs _ nm ?_
        unfold scanPath
        simp only [h, hex, Bool.not_true, Bool.or_false]
        exact foldl_scanUnit_log_mem _ _ _ h (hl p (List.mem_cons_self _ _)) hu
      · exact ih _ (scanPath_notaborted st q (hl q (List.mem_cons_self _ _)) h) htl hm

theorem foldl_scanPath_classes_mem (paths : List DiscoveryPath) (st : ScanState)
    (h : st.aborted = false)
    (hl : ∀ p ∈ paths, ∀ u ∈ p.units, u.2 ≠ UnitOutcome.otherFault)
    (p : DiscoveryPath) (hp : p ∈ paths) (hex : p.pathExists = true) (nm : String)
    (cls : List (String × Nat)) (kv : String × Nat)
    (hu : (nm, UnitOutcome.loads cls) ∈ p.units) (hkv : kv ∈ cls) :
    (dictGet kv.1 ((paths.foldl scanPath st).classes)).isSome = true := by
  induction paths generalizing st with
  | nil => cases hp
  | cons q qs ih =>
      have htl : ∀ x ∈ qs, ∀ u ∈ x.units, u.2 ≠ UnitOutcome.otherFault :=
        fun x hx => hl x (List.mem_cons_of_mem _ hx)
      rcases List.mem_cons.mp hp with he | hm
      · subst he
        refine foldl_scanPath_classes_mono qs _ _ ?_
        unfold scanPath
        simp only [h, hex, Bool.not_true, Bool.or_false]
        exact foldl_scanUnit_classes_mem _ _ _ _ _ h (hl p (List.mem_cons_self _ _)) hu hkv
      · exact ih _ (scanPath_notaborted st q (hl q (List.mem_cons_self _ _)) h) htl hm

/-- C7 counterexample: a candidate unit whose load raises a non-ImportError
fault aborts discovery — the well-behaved unit after it in the same path is
never registered and nothing is logged for the failing unit — although the
module search path is still restored. The claim's "a failure to load any one
candidate unit is logged and discovery of all remaining units still proceeds"
is therefore false at this input. -/
theorem discovery_abort_cex :
    (discover_plugins ["orig"] []
      [{ name := "p", pathExists := true,
         units := [("bad", UnitOutcome.otherFault),
                   ("good", UnitOutcome.loads [("goodplugin", 1)])] }]).raised = true
    ∧ dictGet "goodplugin" (discover_plugins ["orig"] []
        [{ name := "p", pathExists := true,
           units := [("bad", UnitOutcome.otherFault),
                     ("good", UnitOutcome.loads [("goodplugin", 1)])] }]).plugin_classes = none
    ∧ (discover_plugins ["orig"] []
        [{ name := "p", pathExists := true,
           units := [("bad", UnitOutcome.otherFault),
                     ("good", UnitOutcome.loads [("goodplugin", 1)])] }]).loggedUnits = []
    ∧ (discover_plugins ["orig"] []
        [{ name := "p", pathExists := true,
           units := [("bad", UnitOutcome.otherFault),
                     ("good", UnitOutcome.loads [("goodplugin", 1)])] }]).sysPathAfter
        = ["orig"] :=
  ⟨rfl, rfl, rfl, rfl⟩

/-- C7 amended: a candidate unit failing with an ImportError is logged and
does not abort discovery of the remaining units — with no non-ImportError
fault anywhere, discovery completes, every import-failing unit of an existing
path is logged and every class of every loading unit of an existing path is
registered — while a unit raising any other fault aborts the remaining
discovery; the module search path is restored to its original value on every
exit path, exceptional ones included. -/
theorem discovery_fault_handling (sysPath : List String) (cls0 : List (String × Nat))
    (paths : List DiscoveryPath)
    (h : ∀ p ∈ paths, ∀ u ∈ p.units, u.2 ≠ UnitOutcome.otherFault) :
    (discover_plugins sysPath cls0 paths).raised = false
    ∧ (∀ p ∈ paths, p.pathExists = true → ∀ nm : String,
        (nm, UnitOutcome.importFault) ∈ p.units →
        nm ∈ (discover_plugins sysPath cls0 paths).loggedUnits)
    ∧ (∀ p ∈ paths, p.pathExists = true →
        ∀ (nm : String) (cls : List (String × Nat)), (nm, UnitOutcome.loads cls) ∈ p.units →
        ∀ kv ∈ cls, (dictGet kv.1 (discover_plugins sysPath cls0 paths).plugin_classes).isSome
          = true)
    ∧ (∀ paths2 : List DiscoveryPath,
        (discover_plugins sysPath cls0 paths2).sysPathAfter = sysPath) := by
  refine ⟨?_, ?_, ?_, ?_⟩
  · exact foldl_scanPath_notaborted paths _ h rfl
  · intro p hp hex nm hu
    exact foldl_scanPath_log_mem paths _ rfl h p hp hex nm hu
  · intro p hp hex nm cls hu kv hkv
    exact foldl_scanPath_classes_mem paths _ rfl h p hp hex nm cls kv hu hkv
  · intro paths2
    rfl

/-- Witness for C7 amended: a path with an import-failing unit followed by a
loading unit — discovery completes without a propagated fault. -/
theorem discovery_fault_handling_witness :
    (∀ p ∈ [({ name := "p", pathExists := true,
               units := [("bad", UnitOutcome.importFault),
                         ("good", UnitOutcome.loads [("gp", 1)])] } : DiscoveryPath)],
        ∀ u ∈ p.units, u.2 ≠ UnitOutcome.otherFault)
    ∧ (discover_plugins ["orig"] []
        [{ name := "p", pathExists := true,
           units := [("bad", UnitOutcome.importFault),
                     ("good", UnitOutcome.loads [("gp", 1)])] }]).raised = false :=
  ⟨by decide,
   (discovery_fault_handling ["orig"] []
     [{ name := "p", pathExists := true,
        units := [("bad", UnitOutcome.importFault),
                  ("good", UnitOutcome.loads [("gp", 1)])] }] (by decide)).1⟩

/-- C8 counterexample: under the default configuration (no stdlib prefixes
configured), `import os.path` has top-level component `os` in the built-in
name set and matches no earlier rule, so the claim's rule (4) classifies it
stdlib; the code classifies it third_party, because `_is_stdlib_module`
rejects every dotted path outside `xml./http./html./email.`. -/
theorem import_group_claim_cex :
    ({} : SorterConfig).stdlib_prefixes = []
    ∧ String.mk ((splitAll '.' "os.path".toList).headD []) = "os"
    ∧ stdlibModules.contains "os" = true
    ∧ anyStarts "os.path" ({} : SorterConfig).local_prefixes = false
    ∧ ({} : SorterConfig).first_party_prefixes = []
    ∧ ({} : SorterConfig).third_party_prefixes = []
    ∧ determineImportGroup ({} : SorterConfig) { isFrom := false, moduleName := "os.path" }
        = "third_party"
    ∧ ("third_party" : String) ≠ "stdlib" := by
  refine ⟨rfl, rfl, rfl, rfl, rfl, rfl, rfl, by decide⟩

/-- Boolean shape shared by the code's classification and the amended spec's
wording of it. -/
theorem groupIfHelper (c1 c2 c3 e a d s t : Bool) :
    (if c1 then "local" else if c2 then "first_party" else if c3 then "third_party"
     else if (if e then (if d && !s then false else t) else a) then "stdlib"
     else "third_party")
    = (if c1 then "local" else if c2 then "first_party" else if c3 then "third_party"
       else if (!e && a) || (e && (!d || s) && t) then "stdlib" else "third_party") := by
  cases c1 <;> cases c2 <;> cases c3 <;> cases e <;> cases a <;> cases d <;> cases s <;>
    cases t <;> rfl

/-- C8 amended: the classification tests, in this fixed priority order:
(1) a configured local prefix matches → local; (2) first-party prefixes are
configured and one matches → first_party; (3) third-party prefixes likewise →
third_party; (4) a configured stdlib prefix matches, or — with no stdlib
prefixes configured — the path has no dot (or starts with `xml.` / `http.` /
`html.` / `email.`) and its top component is in the built-in set → stdlib;
(5) otherwise third_party. On the spec's example the emission order is
`os, requests, myapp.core, .utils`. -/
theorem import_group_classification :
    (∀ (cfg : SorterConfig) (imp : ImportNode),
        determineImportGroup cfg imp = determineImportGroupSpec cfg imp)
    ∧ sortImports { local_prefixes := ["."], first_party_prefixes := ["myapp"] }
        [{ isFrom := false, moduleName := "os" },
         { isFrom := false, moduleName := "myapp.core" },
         { isFrom := true, moduleName := "." },
         { isFrom := false, moduleName := "requests" }]
      = Except.ok
          [({ isFrom := false, moduleName := "os" }, "stdlib"),
           ({ isFrom := false, moduleName := "requests" }, "third_party"),
           ({ isFrom := false, moduleName := "myapp.core" }, "first_party"),
           ({ isFrom := true, moduleName := "." }, "local")] := by
  constructor
  · intro cfg imp
    simp only [determineImportGroup, determineImportGroupSpec, isStdlibModule]
    exact groupIfHelper _ _ _ _ _ _ _ _
  · rfl

/-! ## Lemmas about the import sorter's fallible sort -/

theorem asciiLower_dot (c : Char) : (asciiLower c = '.') ↔ (c = '.') := by
  unfold asciiLower
  split <;> simp_all

theorem pyContains_dot_lower (m : String) :
    pyContainsChar '.' (pyLower m) = pyContainsChar '.' m := by
  unfold pyContainsChar pyLower
  show (m.toList.map asciiLower).contains '.' = m.toList.contains '.'
  induction m.toList with
  | nil => rfl
  | cons c cs ih =>
      have hc : (('.' : Char) == asciiLower c) = (('.' : Char) == c) := by
        by_cases h : c = '.'
        · subst h
          rfl
        · have h2 : asciiLower c ≠ '.' := fun hh => h ((asciiLower_dot c).mp hh)
          have h3 : ('.' : Char) ≠ asciiLower c := fun hh => h2 hh.symm
          have h4 : ('.' : Char) ≠ c := fun hh => h hh.symm
          simp [h3, h4]
      simp only [List.map_cons, List.contains_cons, hc, ih]

theorem keyIsPair_getSortKey (ci : Bool) (imp : ImportNode) :
    keyIsPair (getSortKey ci true imp) = pyContainsChar '.' imp.moduleName := by
  cases ci with
  | false =>
      simp only [getSortKey, Bool.true_and]
      cases hc : pyContainsChar '.' imp.moduleName <;> simp [hc, keyIsPair]
  | true =>
      simp only [getSortKey, Bool.true_and, if_true]
      rw [pyContains_dot_lower]
      cases hc : pyContainsChar '.' imp.moduleName <;> simp [hc, keyIsPair]

theorem keyLt_ok_same_kind (a b : SortKey) (t : Bool) (h : keyLt a b = Except.ok t) :
    keyIsPair a = keyIsPair b := by
  cases a <;> cases b <;> simp [keyIsPair] <;> simp [keyLt] at h

theorem insertE_mem {α : Type} (key : α → SortKey) (x : α) (l : List α) :
    ∀ r : List α, insertE key x l = Except.ok r → ∀ y, y ∈ r ↔ (y = x ∨ y ∈ l) := by
  induction l with
  | nil =>
      intro r h y
      simp [insertE] at h
      subst h
      simp
  | cons z zs ih =>
      intro r h y
      simp only [insertE] at h
      cases hk : keyLt (key z) (key x) with
      | error e => rw [hk] at h; simp at h
      | ok b =>
          rw [hk] at h
          cases b with
          | true =>
              cases hi : insertE key x zs with
              | error e => rw [hi] at h; simp at h
              | ok r2 =>
                  rw [hi] at h
                  injection h with h2
                  subst h2
                  have := ih r2 hi y
                  simp only [List.mem_cons] at *
                  tauto
          | false =>
              injection h with h2
              subst h2
              simp only [List.mem_cons]

theorem sortE_mem {α : Type} (key : α → SortKey) (l : List α) :
    ∀ r : List α, sortE key l = Except.ok r → ∀ y, y ∈ r ↔ y ∈ l := by
  induction l with
  | nil =>
      intro r h y
      simp [sortE] at h
      subst h
      rfl
  | cons x xs ih =>
      intro r h y
      simp only [sortE] at h
      cases hs : sortE key xs with
      | error e => rw [hs] at h; simp at h
      | ok r2 =>
          rw [hs] at h
          rw [insertE_mem key x r2 r h y, List.mem_cons, ih r2 hs y]

theorem sortE_ok_kinds {α : Type} (key : α → SortKey) (l : List α) :
    ∀ r : List α, sortE key l = Except.ok r →
    ∀ a ∈ l, ∀ b ∈ l, keyIsPair (key a) = keyIsPair (key b) := by
  induction l with
  | nil =>
      intro r h a ha
      cases ha
  | cons x xs ih =>
      intro r h a ha b hb
      simp only [sortE] at h
      cases hs : sortE key xs with
      | error e => rw [hs] at h; simp at h
      | ok r2 =>
          rw [hs] at h
          have hx : ∀ y ∈ xs, keyIsPair (key x) = keyIsPair (key y) := by
            intro y hy
            have hyr2 : y ∈ r2 := (sortE_mem key xs r2 hs y).mpr hy
            cases hr2 : r2 with
            | nil => rw [hr2] at hyr2; cases hyr2
            | cons w ws =>
                rw [hr2] at h
                simp only [insertE] at h
                cases hk : keyLt (key w) (key x) with
                | error e => rw [hk] at h; simp at h
                | ok bb =>
                    have hwx := keyLt_ok_same_kind _ _ _ hk
                    have hwxs : w ∈ xs :=
                      (sortE_mem key xs r2 hs w).mp (hr2 ▸ List.mem_cons_self w ws)
                    have hwy := ih r2 hs w hwxs y hy
                    rw [← hwx, hwy]
          rcases List.mem_cons.mp ha with ha1 | ha1 <;> rcases List.mem_cons.mp hb with hb1 | hb1
          · rw [ha1, hb1]
          · rw [ha1]
            exact hx b hb1
          · rw [hb1]
            exact (hx a ha1).symm
          · exact ih r2 hs a ha1 b hb1

theorem sortE_mixed_error {α : Type} (key : α → SortKey) (l : List α) (a b : α)
    (ha : a ∈ l) (hb : b ∈ l) (hk : keyIsPair (key a) ≠ keyIsPair (key b)) :
    sortE key l = Except.error () := by
  cases hs : sortE key l with
  | ok r => exact absurd (sortE_ok_kinds key l r hs a ha b hb) hk
  | error e =>
      cases e
      rfl

theorem dictGet_some_mem {α : Type} (k : String) (d : List (String × α)) (v : α)
    (h : dictGet k d = some v) : (k, v) ∈ d := by
  induction d with
  | nil => simp [dictGet] at h
  | cons hd tl ih =>
      obtain ⟨a, b⟩ := hd
      simp only [dictGet] at h
      by_cases ha : a = k
      · rw [if_pos ha] at h
        injection h with h2
        subst h2
        subst ha
        exact List.mem_cons_self _ _
      · rw [if_neg ha] at h
        exact List.mem_cons_of_mem _ (ih h)

theorem groupStep_mono (cfg : SorterConfig)
    (acc : List (String × List (ImportNode × String))) (imp : ImportNode) (k : String)
    (lst : List (ImportNode × String)) (hget : dictGet k acc = some lst) :
    ∃ lst2, dictGet k (groupStep cfg acc imp) = some lst2 ∧ ∀ x ∈ lst, x ∈ lst2 := by
  simp only [groupStep]
  by_cases hk : determineImportGroup cfg imp = k
  · rw [hk, hget]
    exact ⟨lst ++ [(imp, determineImportGroup cfg imp)], by rw [hk, dictGet_dictSet_same],
      fun x hx => List.mem_append_left _ hx⟩
  · cases hacc : dictGet (determineImportGroup cfg imp) acc with
    | some l0 =>
        exact ⟨lst, by rw [dictGet_dictSet_other _ _ _ _ hk, hget], fun x hx => hx⟩
    | none =>
        exact ⟨lst, by rw [dictGet_dictSet_other _ _ _ _ hk, hget], fun x hx => hx⟩

theorem groupFold_mono (cfg : SorterConfig) (l : List ImportNode)
    (acc : List (String × List (ImportNode × String))) (k : String)
    (lst : List (ImportNode × String)) (hget : dictGet k acc = some lst) :
    ∃ lst2, dictGet k (l.foldl (groupStep cfg) acc) = some lst2 ∧ ∀ x ∈ lst, x ∈ lst2 := by
  induction l generalizing acc lst with
  | nil => exact ⟨lst, hget, fun x hx => hx⟩
  | cons i rest ih =>
      obtain ⟨lst1, hg1, hincl1⟩ := groupStep_mono cfg acc i k lst hget
      obtain ⟨lst2, hg2, hincl2⟩ := ih (groupStep cfg acc i) lst1 hg1
      exact ⟨lst2, hg2, fun x hx => hincl2 x (hincl1 x hx)⟩

theorem groupFold_mem (cfg : SorterConfig) (l : List ImportNode)
    (acc : List (String × List (ImportNode × String))) (imp : ImportNode) (h : imp ∈ l) :
    ∃ lst, dictGet (determineImportGroup cfg imp) (l.foldl (groupStep cfg) acc) = some lst
      ∧ (imp, determineImportGroup cfg imp) ∈ lst := by
  induction l generalizing acc with
  | nil => cases h
  | cons i rest ih =>
      rcases List.mem_cons.mp h with he | hm
      · subst he
        have hstep : ∃ lst0,
            dictGet (determineImportGroup cfg imp) (groupStep cfg acc imp) = some lst0
            ∧ (imp, determineImportGroup cfg imp) ∈ lst0 := by
          simp only [groupStep]
          cases hacc : dictGet (determineImportGroup cfg imp) acc with
          | some l0 =>
              exact ⟨l0 ++ [(imp, determineImportGroup cfg imp)],
                by rw [dictGet_dictSet_same], by simp⟩
          | none =>
              exact ⟨[(imp, determineImportGroup cfg imp)],
                by rw [dictGet_dictSet_same], by simp⟩
        obtain ⟨lst0, hg0, hm0⟩ := hstep
        obtain ⟨lst2, hg2, hincl⟩ := groupFold_mono cfg rest _ _ _ hg0
        exact ⟨lst2, hg2, hincl _ hm0⟩
      · exact ih (groupStep cfg acc i) hm

theorem groupImports_mem (cfg : SorterConfig) (imports : List ImportNode)
    (imp : ImportNode) (h : imp ∈ imports) :
    ∃ lst, dictGet (determineImportGroup cfg imp) (groupImports cfg imports) = some lst
      ∧ (imp, determineImportGroup cfg imp) ∈ lst :=
  groupFold_mem cfg imports [] imp h

theorem sortGroups_error (key : ImportNode × String → SortKey)
    (gs : List (String × List (ImportNode × String))) (g : String)
    (l : List (ImportNode × String)) (hmem : (g, l) ∈ gs)
    (herr : sortE key l = Except.error ()) : sortGroups key gs = Except.error () := by
  induction gs with
  | nil => cases hmem
  | cons gl rest ih =>
      simp only [sortGroups]
      rcases List.mem_cons.mp hmem with he | hm
      · have h2 : gl.2 = l := by rw [← he]
        rw [h2, herr]
      · cases hs : sortE key gl.2 with
        | error e =>
            cases e
            rfl
        | ok l2 =>
            rw [ih hm]

/-- C10: with sort-by-package enabled, whenever one classification group
contains both a dotted import (tuple sort key) and an undotted import (string
sort key), the within-group sort reaches a tuple-string comparison and raises
TypeError inside `_sort_imports`; the exception propagates out of
`apply_plugin`, so the plugin contributes nothing for that module. -/
theorem import_sorter_mixed_typeerror (cfg : SorterConfig) (imports : List ImportNode)
    (im1 im2 : ImportNode)
    (hbp : cfg.sort_by_package_then_name = true)
    (h1 : im1 ∈ imports) (h2 : im2 ∈ imports)
    (hg : determineImportGroup cfg im1 = determineImportGroup cfg im2)
    (hd1 : pyContainsChar '.' im1.moduleName = true)
    (hd2 : pyContainsChar '.' im2.moduleName = false) :
    sortImports cfg imports = Except.error ()
    ∧ (∀ (renderImp : ImportNode → List String) (otherLines moduleRender : List String),
        applyImportSorterFile cfg imports renderImp otherLines moduleRender
          = Except.error ()) := by
  obtain ⟨lst, hget1, hmem1⟩ := groupImports_mem cfg imports im1 h1
  obtain ⟨lst2, hget2, hmem2⟩ := groupImports_mem cfg imports im2 h2
  have hgg : dictGet (determineImportGroup cfg im2) (groupImports cfg imports) = some lst := by
    rw [← hg]
    exact hget1
  have hll : lst2 = lst := by
    rw [hgg] at hget2
    injection hget2 with hv
    exact hv.symm
  rw [hll] at hmem2
  have hkinds : keyIsPair (getSortKey cfg.sort_case_insensitive
        cfg.sort_by_package_then_name im1)
      ≠ keyIsPair (getSortKey cfg.sort_case_insensitive
        cfg.sort_by_package_then_name im2) := by
    rw [hbp, keyIsPair_getSortKey, keyIsPair_getSortKey, hd1, hd2]
    simp
  have herr : sortE (fun x : ImportNode × String =>
      getSortKey cfg.sort_case_insensitive cfg.sort_by_package_then_name x.1) lst
      = Except.error () :=
    sortE_mixed_error _ lst (im1, determineImportGroup cfg im1)
      (im2, determineImportGroup cfg im2) hmem1 hmem2 hkinds
  have hsg : sortGroups (fun x : ImportNode × String =>
      getSortKey cfg.sort_case_insensitive cfg.sort_by_package_then_name x.1)
      (groupImports cfg imports) = Except.error () :=
    sortGroups_error _ _ _ _ (dictGet_some_mem _ _ _ hget1) herr
  have hsi : sortImports cfg imports = Except.error () := by
    simp only [sortImports]
    rw [hsg]
  refine ⟨hsi, ?_⟩
  intro renderImp otherLines moduleRender
  have hne : imports.isEmpty = false := by
    cases imports
    · cases h1
    · rfl
  simp [applyImportSorterFile, processModuleImports, hne, hsi]

/-- Witness for C10: under the default configuration, `import requests` and
`import a.b` both classify third_party, and sorting that module raises. -/
theorem import_sorter_mixed_typeerror_witness :
    ({} : SorterConfig).sort_by_package_then_name = true
    ∧ determineImportGroup ({} : SorterConfig) { isFrom := false, moduleName := "a.b" }
        = determineImportGroup ({} : SorterConfig) { isFrom := false, moduleName := "requests" }
    ∧ sortImports ({} : SorterConfig)
        [{ isFrom := false, moduleName := "requests" },
         { isFrom := false, moduleName := "a.b" }]
        = Except.error () :=
  ⟨rfl, rfl,
   (import_sorter_mixed_typeerror ({} : SorterConfig)
     [{ isFrom := false, moduleName := "requests" },
      { isFrom := false, moduleName := "a.b" }]
     { isFrom := false, moduleName := "a.b" }
     { isFrom := false, moduleName := "requests" }
     rfl (by simp) (by simp) rfl (by decide) (by decide)).1⟩
